import Mathlib

/-!
Verification development for the light-client core of tendermint-rs.

The repository's visible sources (`src/tendermint/tests/lite.rs`,
`src/light-client/tests/model_based.rs`) are tests and callers of the
verification core; the core itself (`verify_single`, `verify_to_target`,
voting-power accounting) is specified in `spec.md` §3–§4 and is modelled
here from that specification.  The RPC event accessor
(`Event::event_type`, `src/rpc/src/v0_34/event.rs`) is translated
directly from its source.

Machine integers (`u64` voting powers) are modelled as `Nat` with explicit
saturation at `2^64 - 1`; times are `Int` nanoseconds so that subtraction
`now - trusted.time` behaves as in the source.
-/

namespace Tendermint

/-- `u64::MAX`, the saturation bound for voting-power sums. -/
def u64MAX : Nat := 2 ^ 64 - 1

/-- Saturating `u64` addition: sums clamp at `u64MAX` instead of wrapping. -/
def satAdd (a b : Nat) : Nat := min (a + b) u64MAX

/-- Modelled from the spec (§3): a validator is a public key with a voting
power.  Public keys are abstracted to `Nat`. -/
structure Validator where
  public_key : Nat
  voting_power : Nat
deriving DecidableEq, Repr

/-- Modelled from the spec (§3): a validator set is an ordered collection of
validators, unique by public key (uniqueness is not needed by the claims
and is not enforced structurally). -/
abbrev ValidatorSet : Type := List Validator

/-- Modelled from the spec (§4.1): `total_power(set)` is the saturating sum
of all members' voting power. -/
def total_power (vs : ValidatorSet) : Nat :=
  vs.foldl (fun acc v => satAdd acc v.voting_power) 0

/-- Modelled from the spec (§4.1): `power_of(set, subset_of_keys)` is the
saturating sum of the voting power of the members of `set` whose public key
belongs to the given key list. -/
def power_of (vs : ValidatorSet) (keys : List Nat) : Nat :=
  (vs.filter (fun v => v.public_key ∈ keys)).foldl
    (fun acc v => satAdd acc v.voting_power) 0

/-- Modelled from the spec (§3): a block header.  Hash fields are abstract
`Nat` digests; `time` is an `Int` (nanoseconds). -/
structure Header where
  height : Nat
  time : Int
  chain_id : Nat
  validators_hash : Nat
  next_validators_hash : Nat
deriving DecidableEq, Repr

/-- A mixing step for the model's executable stand-in hash. -/
def mix (a b : Nat) : Nat := a * 1000003 + b

/-- Modelled from the spec (§3): the stable hash a validator set exposes,
realised by an executable fold. -/
def hashValSet (vs : ValidatorSet) : Nat :=
  vs.foldl (fun acc v => mix (mix acc v.public_key) v.voting_power) 7

/-- Executable digest of a header, used as the message of a canonical vote. -/
def headerHash (h : Header) : Nat :=
  mix h.height (mix h.time.natAbs
    (mix h.chain_id (mix h.validators_hash h.next_validators_hash)))

/-- Modelled from the spec (§3): one vote of a commit — a validator key plus
a signature over the canonical vote message. -/
structure Vote where
  validator_key : Nat
  sig : Nat
deriving DecidableEq, Repr

/-- The model's canonical signature of a key over a header: signature
checking is abstracted to recomputing this value. -/
def canonicalSig (key : Nat) (h : Header) : Nat := mix key (headerHash h)

/-- Whether a vote's signature is cryptographically valid over the canonical
vote message for this header. -/
def voteValid (h : Header) (v : Vote) : Bool :=
  v.sig == canonicalSig v.validator_key h

/-- Modelled from the spec (§3): a commit is the set of votes present for a
block (absent slots are simply missing from the list). -/
structure Commit where
  votes : List Vote
deriving DecidableEq, Repr

/-- Modelled from the spec (§3): a signed header is a header together with
the commit for it. -/
structure SignedHeader where
  header : Header
  commit : Commit
deriving DecidableEq, Repr

/-- Keys of the votes of a commit whose signature is valid over `h`. -/
def validSignerKeys (h : Header) (c : Commit) : List Nat :=
  ((c.votes.filter (voteValid h)).map Vote.validator_key)

/-- Modelled from the spec (§3): a light block. -/
structure LightBlock where
  signed_header : SignedHeader
  validator_set : ValidatorSet
  next_validator_set : ValidatorSet
  provider_identity : Nat
deriving DecidableEq, Repr

/-- The height a light block claims in its header. -/
def LightBlock.height (b : LightBlock) : Nat := b.signed_header.header.height

/-- Modelled from the spec (§3): the trusted state is the signed header and
next validator set of the most recently verified block. -/
structure TrustedState where
  signed_header : SignedHeader
  next_validator_set : ValidatorSet
deriving DecidableEq, Repr

/-- The trusted anchor's height. -/
def TrustedState.height (t : TrustedState) : Nat := t.signed_header.header.height

/-- The trusted anchor's header time. -/
def TrustedState.time (t : TrustedState) : Int := t.signed_header.header.time

/-- Promotion of a successfully verified light block into the new trusted
state (spec §3: replaced atomically on every successful verification). -/
def toTrusted (b : LightBlock) : TrustedState :=
  { signed_header := b.signed_header, next_validator_set := b.next_validator_set }

/-- Modelled from the spec (§3): a trust threshold fraction `num/denom`,
typically `1/3`. -/
structure TrustThreshold where
  num : Nat
  denom : Nat
deriving DecidableEq, Repr

/-- The default trust threshold, `1/3` (spec §6). -/
def defaultTrustThreshold : TrustThreshold := ⟨1, 3⟩

/-- Modelled from the spec (§7): the error taxonomy of verification. -/
inductive VerificationError where
  | expired
  | headerFromFuture
  | linkageMismatch
  | badSignature (index : Nat)
  | insufficientSignatures
  | insufficientTrustUnrecoverable
deriving DecidableEq, Repr

/-- Modelled from the spec (§3): the three-way verification verdict — never
a bare boolean. -/
inductive Verdict where
  | success (b : LightBlock)
  | notEnoughTrust (tally : Nat)
  | invalid (e : VerificationError)
deriving DecidableEq, Repr

/-- Modelled from the spec (§4.5 step 1): the trusted anchor is expired when
`now - trusted.time ≥ trusting_period`. -/
def expiredCheck (t : TrustedState) (trusting_period now : Int) : Bool :=
  trusting_period ≤ now - t.time

/-- Modelled from the spec (§4.5 step 2): the candidate header is from the
future when `candidate.time > now + clock_drift`. -/
def fromFutureCheck (c : LightBlock) (clock_drift now : Int) : Bool :=
  now + clock_drift < c.signed_header.header.time

/-- Modelled from the spec (§4.4): header/validator-set linkage — untrusted
height strictly greater than trusted height, declared validator-set and
next-validator-set hashes match the supplied sets, chain ids match. -/
def linkage_ok (t : TrustedState) (c : LightBlock) : Bool :=
  decide (t.height < c.height) &&
  (c.signed_header.header.validators_hash == hashValSet c.validator_set) &&
  (c.signed_header.header.next_validators_hash == hashValSet c.next_validator_set) &&
  (c.signed_header.header.chain_id == t.signed_header.header.chain_id)

/-- Index of the first vote of the commit whose signature is invalid, when
one exists (spec §4.2: verification is strict per-signature). -/
def firstBadSig (h : Header) (c : Commit) : Option Nat :=
  (List.range c.votes.length).find? (fun i =>
    match c.votes[i]? with
    | some v => !voteValid h v
    | none => false)

/-- Modelled from the spec (§4.2): commit verification — every present
signature must be valid, and the voting power of validators with valid
signatures must be strictly greater than ⅔ of the set's total power. -/
def commitCheck (vs : ValidatorSet) (sh : SignedHeader) : Option VerificationError :=
  match firstBadSig sh.header sh.commit with
  | some i => some (.badSignature i)
  | none =>
      if 2 * total_power vs < 3 * power_of vs (validSignerKeys sh.header sh.commit)
      then none
      else some .insufficientSignatures

/-- Modelled from the spec (§4.3): the voting power, measured against the
trusted set's total, of trusted validators that validly signed the
untrusted commit. -/
def trust_tally (trustedVals : ValidatorSet) (sh : SignedHeader) : Nat :=
  power_of trustedVals (validSignerKeys sh.header sh.commit)

/-- Modelled from the spec (§4.3): the trust-threshold comparison — the
measured power must exceed `num/denom` of the trusted total. -/
def trust_ok (θ : TrustThreshold) (tally total : Nat) : Bool :=
  θ.num * total < tally * θ.denom

/-- Modelled from the spec (§4.5): single-step verification of one
untrusted light block against one trusted state.  Steps, each
short-circuiting: expiry, clock, linkage, commit validity, trust
selection. -/
def verify_single (t : TrustedState) (c : LightBlock) (θ : TrustThreshold)
    (trusting_period clock_drift now : Int) : Verdict :=
  if expiredCheck t trusting_period now then .invalid .expired
  else if fromFutureCheck c clock_drift now then .invalid .headerFromFuture
  else if !linkage_ok t c then .invalid .linkageMismatch
  else match commitCheck c.validator_set c.signed_header with
    | some e => .invalid e
    | none =>
        if c.height == t.height + 1 then .success c
        else
          let tally := trust_tally t.next_validator_set c.signed_header
          if trust_ok θ tally (total_power t.next_validator_set)
          then .success c
          else .notEnoughTrust tally

/-- Modelled from the spec (§4.6): bisection verification toward
`target_height`.  `fetch` is the external height provider, `fuel` bounds the
recursion depth (`none` means the fuel ran out; a sufficient fuel is proved
to exist).  On `Success` return the block; on `NotEnoughTrust` bisect at
`mid = trusted.height + (target - trusted.height) / 2` when
`trusted.height < mid < target`, otherwise fail with
`insufficientTrustUnrecoverable`; on `Invalid` propagate. -/
def verify_to_target (fetch : Nat → LightBlock) (θ : TrustThreshold)
    (trusting_period clock_drift now : Int) :
    TrustedState → Nat → Nat → Option (Except VerificationError LightBlock)
  | _, _, 0 => none
  | t, target, fuel + 1 =>
      let candidate := fetch target
      match verify_single t candidate θ trusting_period clock_drift now with
      | .success b => some (.ok b)
      | .invalid e => some (.error e)
      | .notEnoughTrust _ =>
          let mid := t.height + (target - t.height) / 2
          if t.height < mid ∧ mid < target then
            match verify_to_target fetch θ trusting_period clock_drift now t mid fuel with
            | none => none
            | some (.error e) => some (.error e)
            | some (.ok pivot) =>
                verify_to_target fetch θ trusting_period clock_drift now
                  (toTrusted pivot) target fuel
          else some (.error .insufficientTrustUnrecoverable)

/-- Number of single-step verifications (`verify_single` calls) performed by
`verify_to_target` on the same arguments. -/
def countSingleSteps (fetch : Nat → LightBlock) (θ : TrustThreshold)
    (trusting_period clock_drift now : Int) :
    TrustedState → Nat → Nat → Nat
  | _, _, 0 => 0
  | t, target, fuel + 1 =>
      let candidate := fetch target
      match verify_single t candidate θ trusting_period clock_drift now with
      | .success _ => 1
      | .invalid _ => 1
      | .notEnoughTrust _ =>
          let mid := t.height + (target - t.height) / 2
          if t.height < mid ∧ mid < target then
            match verify_to_target fetch θ trusting_period clock_drift now t mid fuel with
            | none => 1 + countSingleSteps fetch θ trusting_period clock_drift now t mid fuel
            | some (.error _) =>
                1 + countSingleSteps fetch θ trusting_period clock_drift now t mid fuel
            | some (.ok pivot) =>
                1 + countSingleSteps fetch θ trusting_period clock_drift now t mid fuel
                  + countSingleSteps fetch θ trusting_period clock_drift now
                      (toTrusted pivot) target fuel
          else 1

/-- Modelled from the tests (`single_step_test`, `run_test_cases`): one step
of a verification session — the trusted state is replaced exactly when the
verdict is `Success`, otherwise kept. -/
def sessionStep (t : TrustedState) (c : LightBlock) (θ : TrustThreshold)
    (trusting_period clock_drift now : Int) : TrustedState :=
  match verify_single t c θ trusting_period clock_drift now with
  | .success b => toTrusted b
  | _ => t

/-- Decidable equality for `Except`, needed to evaluate bisection results
on concrete inputs. -/
instance {ε α : Type} [DecidableEq ε] [DecidableEq α] :
    DecidableEq (Except ε α)
  | .error a, .error b =>
      if h : a = b then isTrue (h ▸ rfl)
      else isFalse (fun hc => h (Except.error.inj hc))
  | .ok a, .ok b =>
      if h : a = b then isTrue (h ▸ rfl)
      else isFalse (fun hc => h (Except.ok.inj hc))
  | .error _, .ok _ => isFalse (fun hc => Except.noConfusion hc)
  | .ok _, .error _ => isFalse (fun hc => Except.noConfusion hc)

/-- Whether a verdict is `success`. -/
def Verdict.isSuccess : Verdict → Bool
  | .success _ => true
  | _ => false

/-- Discriminator of the three verdict kinds. -/
def Verdict.kind : Verdict → Nat
  | .success _ => 0
  | .notEnoughTrust _ => 1
  | .invalid _ => 2

/-! ### Concrete chain scenarios used by witnesses and counterexamples

`chainBlock h` is a block at height `h` whose validator set is the single
validator `h` and whose next validator set is the single validator `h + 1`:
every adjacent verification succeeds, while every non-adjacent pair shares
no validator, so skip verification always yields `NotEnoughTrust`. -/

/-- The single validator active at height `h` in the rotating chain. -/
def valAt (h : Nat) : Validator := ⟨h, 1⟩

/-- Header of the rotating chain at height `h`. -/
def chainHeader (h : Nat) : Header :=
  { height := h, time := (h : Int), chain_id := 0,
    validators_hash := hashValSet [valAt h],
    next_validators_hash := hashValSet [valAt (h + 1)] }

/-- Light block of the rotating chain at height `h`, committed by its sole
validator. -/
def chainBlock (h : Nat) : LightBlock :=
  { signed_header :=
      { header := chainHeader h,
        commit := ⟨[⟨h, canonicalSig h (chainHeader h)⟩]⟩ },
    validator_set := [valAt h],
    next_validator_set := [valAt (h + 1)],
    provider_identity := 0 }

/-- The rotating chain as a height provider. -/
def chainFetch : Nat → LightBlock := chainBlock

/-- Validators A, B, C with voting powers 2, 2, 1 (total 5). -/
def vsABC : ValidatorSet := [⟨1, 2⟩, ⟨2, 2⟩, ⟨3, 1⟩]

/-- Header of the trusted anchor at height 1 in the ABC scenario. -/
def hdrABC1 : Header :=
  { height := 1, time := 0, chain_id := 7,
    validators_hash := hashValSet vsABC,
    next_validators_hash := hashValSet vsABC }

/-- Header of the candidate at height 2 in the ABC scenario. -/
def hdrABC2 : Header :=
  { height := 2, time := 3, chain_id := 7,
    validators_hash := hashValSet vsABC,
    next_validators_hash := hashValSet vsABC }

/-- Trusted anchor at height 1 whose next validator set is `vsABC`. -/
def trustedABC : TrustedState :=
  { signed_header := { header := hdrABC1, commit := ⟨[]⟩ },
    next_validator_set := vsABC }

/-- Candidate at height 2 committed by A and B (power 4 of 5: quorum). -/
def blockAB : LightBlock :=
  { signed_header :=
      { header := hdrABC2,
        commit := ⟨[⟨1, canonicalSig 1 hdrABC2⟩, ⟨2, canonicalSig 2 hdrABC2⟩]⟩ },
    validator_set := vsABC,
    next_validator_set := vsABC,
    provider_identity := 0 }

/-- Candidate at height 2 committed by A alone (power 2 of 5: no quorum). -/
def blockAonly : LightBlock :=
  { signed_header :=
      { header := hdrABC2,
        commit := ⟨[⟨1, canonicalSig 1 hdrABC2⟩]⟩ },
    validator_set := vsABC,
    next_validator_set := vsABC,
    provider_identity := 0 }

end Tendermint

namespace Rpc

/-- Modelled from the spec and `src/rpc/src/v0_34/event.rs` (the `EventData`
enum itself is declared outside the visible sources; its variants `NewBlock`,
`Tx` and a residual one are those named by the `match` arms of
`Event::event_type`).  Payloads are abstracted. -/
inductive EventData where
  | newBlock (block : Option Nat) (result_begin_block : Option Nat)
      (result_end_block : Option Nat)
  | tx (tx_result : Nat)
  | genericJsonEvent (value : Nat)
deriving DecidableEq, Repr

/-- Modelled from the spec and `src/rpc/src/v0_34/event.rs`: the recognised
event types (the variants named by `Event::event_type`). -/
inductive EventType where
  | newBlock
  | tx
deriving DecidableEq, Repr

/-- `Event` from `src/rpc/src/v0_34/event.rs`: query, data, and an optional
key-value attribute map. -/
structure Event where
  query : String
  data : EventData
  events : Option (List (String × List String))
deriving DecidableEq, Repr

/-- `Event::event_type` from `src/rpc/src/v0_34/event.rs`: `Some(NewBlock)`
for `NewBlock` data, `Some(Tx)` for `Tx` data, `None` otherwise. -/
def Event.event_type (self : Event) : Option EventType :=
  match self.data with
  | .newBlock _ _ _ => some .newBlock
  | .tx _ => some .tx
  | _ => none

end Rpc

namespace Tendermint

/-! ### Helper lemmas -/

/-- Inversion for a successful single-step verification: the returned block
is the candidate, the linkage check passed and the commit check passed. -/
lemma verify_single_success_inv {t : TrustedState} {c : LightBlock}
    {θ : TrustThreshold} {tp cd now : Int} {b : LightBlock}
    (h : verify_single t c θ tp cd now = .success b) :
    b = c ∧ linkage_ok t c = true ∧
      commitCheck c.validator_set c.signed_header = none := by
  unfold verify_single at h
  split at h
  · simp at h
  · split at h
    · simp at h
    · split at h
      · simp at h
      · rename_i hlink
        split at h
        · simp at h
        · rename_i hcommit
          refine ⟨?_, ?_, hcommit⟩
          · split at h
            · simp_all
            · dsimp only at h
              split at h <;> simp_all
          · revert hlink
            cases linkage_ok t c <;> simp

/-- A passed linkage check forces the candidate height to be strictly above
the trusted height. -/
lemma linkage_ok_height {t : TrustedState} {c : LightBlock}
    (h : linkage_ok t c = true) : t.height < c.height := by
  unfold linkage_ok at h
  simp only [Bool.and_eq_true, decide_eq_true_eq] at h
  exact h.1.1.1

/-- A passed commit check forces the valid-signature voting power to be
strictly above two-thirds of the total. -/
lemma commitCheck_none_quorum {vs : ValidatorSet} {sh : SignedHeader}
    (h : commitCheck vs sh = none) :
    2 * total_power vs <
      3 * power_of vs (validSignerKeys sh.header sh.commit) := by
  unfold commitCheck at h
  split at h
  · simp at h
  · split at h
    · assumption
    · simp at h

end Tendermint

namespace Claims

open Tendermint Rpc

/-- C1: if the summed voting power of validators with valid signatures on
the candidate's commit is at most two-thirds of the candidate validator
set's total voting power, `verify_single` does not return `Success`. -/
theorem no_acceptance_without_quorum (t : TrustedState) (c : LightBlock)
    (θ : TrustThreshold) (tp cd now : Int)
    (h : 3 * power_of c.validator_set
          (validSignerKeys c.signed_header.header c.signed_header.commit)
        ≤ 2 * total_power c.validator_set) :
    (verify_single t c θ tp cd now).isSuccess = false := by
  cases hv : verify_single t c θ tp cd now with
  | success b =>
      obtain ⟨-, -, hc⟩ := verify_single_success_inv hv
      have := commitCheck_none_quorum hc
      omega
  | notEnoughTrust tally => rfl
  | invalid e => rfl

/-- Witness for C1: at `trustedABC` / `blockAonly`, validator A alone holds
power 2 of total 5 (≤ ⅔), and the verdict is not `Success`. -/
theorem no_acceptance_without_quorum_witness :
    3 * power_of blockAonly.validator_set
        (validSignerKeys blockAonly.signed_header.header
          blockAonly.signed_header.commit)
      ≤ 2 * total_power blockAonly.validator_set ∧
    (verify_single trustedABC blockAonly defaultTrustThreshold 100 1 5).isSuccess
      = false :=
  ⟨by decide,
   no_acceptance_without_quorum trustedABC blockAonly defaultTrustThreshold
     100 1 5 (by decide)⟩

/-- C2: whenever `now - trusted.time ≥ trusting_period` (inclusively at the
boundary), `verify_single` returns `Invalid(Expired)` regardless of the
candidate. -/
theorem expiry_rejects (t : TrustedState) (c : LightBlock)
    (θ : TrustThreshold) (tp cd now : Int) (h : tp ≤ now - t.time) :
    verify_single t c θ tp cd now = .invalid .expired := by
  unfold verify_single expiredCheck
  simp [h]

/-- Witness for C2: `now` exactly 1 nanosecond past
`trusted.time + trusting_period` on an otherwise perfectly valid candidate
(`blockAB` verifies successfully at `now = 5`). -/
theorem expiry_rejects_witness :
    (100 : Int) ≤ (0 + 100 + 1) - trustedABC.time ∧
    verify_single trustedABC blockAB defaultTrustThreshold 100 1 (0 + 100 + 1)
      = .invalid .expired ∧
    verify_single trustedABC blockAB defaultTrustThreshold 100 1 5
      = .success blockAB :=
  ⟨by decide,
   expiry_rejects trustedABC blockAB defaultTrustThreshold 100 1 (0 + 100 + 1)
     (by decide),
   by decide⟩

/-- C9: a successful `verify_single` returns the candidate light block
itself, component-wise unchanged. -/
theorem success_promotes_candidate (t : TrustedState) (c : LightBlock)
    (θ : TrustThreshold) (tp cd now : Int) (b : LightBlock)
    (h : verify_single t c θ tp cd now = .success b) : b = c :=
  (verify_single_success_inv h).1

/-- Witness for C9: the successful verification of `blockAB` returns
`blockAB` itself. -/
theorem success_promotes_candidate_witness :
    verify_single trustedABC blockAB defaultTrustThreshold 100 1 5
      = .success blockAB ∧ blockAB = blockAB :=
  ⟨by decide,
   success_promotes_candidate trustedABC blockAB defaultTrustThreshold 100 1 5
     blockAB (by decide)⟩

/-- C5: monotonic trust — on `Success` the accepted block's height is
strictly above the trusted height and the session's trusted state is
replaced by the promoted block; on any other verdict the trusted state is
kept unchanged. -/
theorem monotonic_trust (t : TrustedState) (c : LightBlock)
    (θ : TrustThreshold) (tp cd now : Int) :
    match verify_single t c θ tp cd now with
    | .success b =>
        t.height < b.height ∧
        sessionStep t c θ tp cd now = toTrusted b ∧
        t.height < (sessionStep t c θ tp cd now).height
    | _ => sessionStep t c θ tp cd now = t := by
  cases hv : verify_single t c θ tp cd now with
  | success b =>
      obtain ⟨hb, hl, -⟩ := verify_single_success_inv hv
      have hh : t.height < c.height := linkage_ok_height hl
      subst hb
      refine ⟨hh, ?_, ?_⟩ <;> simp [sessionStep, hv]
      exact hh
  | notEnoughTrust tally => simp [sessionStep, hv]
  | invalid e => simp [sessionStep, hv]

/-- C7: the verdict of single-step verification is always exactly one of
the three distinguishable kinds `Success`, `NotEnoughTrust`, `Invalid`. -/
theorem verdict_three_way (t : TrustedState) (c : LightBlock)
    (θ : TrustThreshold) (tp cd now : Int) :
    ((∃ b, verify_single t c θ tp cd now = .success b) ∨
     (∃ tally, verify_single t c θ tp cd now = .notEnoughTrust tally) ∨
     (∃ e, verify_single t c θ tp cd now = .invalid e)) ∧
    (∀ (b : LightBlock) (tally : Nat),
      decide (Verdict.success b = Verdict.notEnoughTrust tally) = false) ∧
    (∀ (b : LightBlock) (e : VerificationError),
      decide (Verdict.success b = Verdict.invalid e) = false) ∧
    (∀ (tally : Nat) (e : VerificationError),
      decide (Verdict.notEnoughTrust tally = Verdict.invalid e) = false) := by
  refine ⟨?_, ?_, ?_, ?_⟩
  · cases hv : verify_single t c θ tp cd now with
    | success b => exact .inl ⟨b, rfl⟩
    | notEnoughTrust tally => exact .inr (.inl ⟨tally, rfl⟩)
    | invalid e => exact .inr (.inr ⟨e, rfl⟩)
  all_goals intros; simp

/-- C10: `Event::event_type` returns `Some(NewBlock)` exactly for `NewBlock`
data, `Some(Tx)` exactly for `Tx` data, `None` for every other variant, and
depends on nothing but the `data` field. -/
theorem event_type_characterisation :
    ∀ (e : Event),
    (e.event_type = some EventType.newBlock ↔
      ∃ a b c, e.data = EventData.newBlock a b c) ∧
    (e.event_type = some EventType.tx ↔ ∃ r, e.data = EventData.tx r) ∧
    (e.event_type = none ↔ ∃ v, e.data = EventData.genericJsonEvent v) ∧
    (∀ (q q' : String) (m m' : Option (List (String × List String)))
       (d : EventData),
       Event.event_type ⟨q, d, m⟩ = Event.event_type ⟨q', d, m'⟩) := by
  intro e
  obtain ⟨q, d, m⟩ := e
  refine ⟨?_, ?_, ?_, ?_⟩
  · cases d <;> simp [Event.event_type]
  · cases d <;> simp [Event.event_type]
  · cases d <;> simp [Event.event_type]
  · intro q q' m m' d
    cases d <;> rfl

/-- C4: once the expiry, clock, linkage and commit checks pass, an adjacent
candidate (`height = trusted.height + 1`) is `Success` with no
trust-threshold check; at any larger gap the verdict is `Success` exactly
when the trust threshold between `trusted.next_validator_set` and the
candidate's commit is met, and `NotEnoughTrust` (never `Invalid`)
otherwise. -/
theorem trust_selection (t : TrustedState) (c : LightBlock)
    (θ : TrustThreshold) (tp cd now : Int)
    (h1 : expiredCheck t tp now = false)
    (h2 : fromFutureCheck c cd now = false)
    (h3 : linkage_ok t c = true)
    (h4 : commitCheck c.validator_set c.signed_header = none) :
    if c.height = t.height + 1 then
      verify_single t c θ tp cd now = .success c
    else if trust_ok θ (trust_tally t.next_validator_set c.signed_header)
        (total_power t.next_validator_set) = true then
      verify_single t c θ tp cd now = .success c
    else
      verify_single t c θ tp cd now
        = .notEnoughTrust (trust_tally t.next_validator_set c.signed_header)
    := by
  unfold verify_single
  rw [h1, h2, h3, h4]
  simp only [Bool.not_true, Bool.false_eq_true, if_false, beq_iff_eq]
  by_cases hadj : c.height = t.height + 1
  · simp [hadj]
  · simp only [hadj, if_false]
    by_cases htr : trust_ok θ (trust_tally t.next_validator_set c.signed_header)
        (total_power t.next_validator_set) = true
    · simp [htr]
    · simp only [Bool.not_eq_true] at htr
      simp [htr]

/-- Witness for C4: `blockAB` is adjacent to `trustedABC` and all four
checks pass, so the verdict is `Success blockAB` with no threshold check. -/
theorem trust_selection_witness :
    expiredCheck trustedABC 100 5 = false ∧
    fromFutureCheck blockAB 1 5 = false ∧
    linkage_ok trustedABC blockAB = true ∧
    commitCheck blockAB.validator_set blockAB.signed_header = none ∧
    (if blockAB.height = trustedABC.height + 1 then
      verify_single trustedABC blockAB defaultTrustThreshold 100 1 5
        = .success blockAB
    else if trust_ok defaultTrustThreshold
        (trust_tally trustedABC.next_validator_set blockAB.signed_header)
        (total_power trustedABC.next_validator_set) = true then
      verify_single trustedABC blockAB defaultTrustThreshold 100 1 5
        = .success blockAB
    else
      verify_single trustedABC blockAB defaultTrustThreshold 100 1 5
        = .notEnoughTrust
            (trust_tally trustedABC.next_validator_set blockAB.signed_header)) :=
  ⟨by decide, by decide, by decide, by decide,
   trust_selection trustedABC blockAB defaultTrustThreshold 100 1 5
     (by decide) (by decide) (by decide) (by decide)⟩

end Claims

namespace Tendermint

/-- The saturating fold over voting powers computes the clamped sum. -/
lemma foldl_satAdd_powers (vs : List Validator) :
    ∀ a, a ≤ u64MAX →
      vs.foldl (fun acc v => satAdd acc v.voting_power) a
        = min (a + (vs.map Validator.voting_power).sum) u64MAX := by
  induction vs with
  | nil => intro a ha; simpa using by omega
  | cons v vs ih =>
      intro a ha
      simp only [List.foldl_cons, List.map_cons, List.sum_cons]
      rw [ih (satAdd a v.voting_power) (by unfold satAdd; omega)]
      unfold satAdd
      omega

/-- `total_power` computes the clamped (saturating) sum of all powers. -/
lemma total_power_eq_min (vs : ValidatorSet) :
    total_power vs = min ((vs.map Validator.voting_power).sum) u64MAX := by
  unfold total_power
  rw [foldl_satAdd_powers vs 0 (by unfold u64MAX; omega)]
  omega

/-- `power_of` computes the clamped (saturating) sum of the selected
powers. -/
lemma power_of_eq_min (vs : ValidatorSet) (keys : List Nat) :
    power_of vs keys
      = min (((vs.filter (fun v => v.public_key ∈ keys)).map
          Validator.voting_power).sum) u64MAX := by
  unfold power_of
  rw [foldl_satAdd_powers _ 0 (by unfold u64MAX; omega)]
  omega

end Tendermint

namespace Claims

open Tendermint

/-- C8: voting-power sums saturate at `u64::MAX` instead of wrapping — when
the mathematical sum of the powers (respectively of the selected powers)
exceeds `u64::MAX`, `total_power` (respectively `power_of`) returns
`u64::MAX`. -/
theorem voting_power_saturates (vs : ValidatorSet) (keys : List Nat)
    (h1 : u64MAX < (vs.map Validator.voting_power).sum)
    (h2 : u64MAX < ((vs.filter (fun v => v.public_key ∈ keys)).map
        Validator.voting_power).sum) :
    total_power vs = u64MAX ∧ power_of vs keys = u64MAX := by
  rw [total_power_eq_min, power_of_eq_min]
  omega

end Claims

namespace Tendermint

/-- Whatever the recursion path, a successful `verify_to_target` returns
the block fetched at the requested target height, never a pivot. -/
lemma verify_to_target_ok_eq (fetch : Nat → LightBlock) (θ : TrustThreshold)
    (tp cd now : Int) :
    ∀ (fuel : Nat) (t : TrustedState) (target : Nat) (b : LightBlock),
      verify_to_target fetch θ tp cd now t target fuel = some (.ok b) →
      b = fetch target := by
  intro fuel
  induction fuel with
  | zero =>
      intro t target b h
      simp [verify_to_target] at h
  | succ f ih =>
      intro t target b h
      rw [verify_to_target] at h
      revert h
      cases hv : verify_single t (fetch target) θ tp cd now with
      | success b' =>
          intro h
          simp only [Option.some.injEq, Except.ok.injEq] at h
          subst h
          exact (verify_single_success_inv hv).1
      | invalid e => intro h; simp at h
      | notEnoughTrust tally =>
          intro h
          dsimp only at h
          split at h
          · split at h
            · simp at h
            · simp at h
            · exact ih _ _ _ h
          · simp at h

/-- With fuel at least the height gap and a height-honest provider,
bisection terminates with a definite answer, and the number of single-step
verifications is bounded by `2 * gap - 1` (linear in the gap). -/
lemma bisection_fuel_sufficient (fetch : Nat → LightBlock) (θ : TrustThreshold)
    (tp cd now : Int) (hfetch : ∀ h, (fetch h).height = h) :
    ∀ (fuel : Nat) (t : TrustedState) (target : Nat),
      t.height < target → target - t.height ≤ fuel →
      (verify_to_target fetch θ tp cd now t target fuel).isSome = true ∧
      countSingleSteps fetch θ tp cd now t target fuel
        ≤ 2 * (target - t.height) - 1 := by
  intro fuel
  induction fuel with
  | zero => intro t target h1 h2; exact absurd h1 (by omega)
  | succ f ih =>
      intro t target h1 h2
      rw [verify_to_target, countSingleSteps]
      dsimp only
      cases hv : verify_single t (fetch target) θ tp cd now with
      | success b => refine ⟨rfl, ?_⟩; dsimp only; omega
      | invalid e => refine ⟨rfl, ?_⟩; dsimp only; omega
      | notEnoughTrust tally =>
          dsimp only
          by_cases hg : t.height + 2 ≤ target
          · have hguard : t.height < t.height + (target - t.height) / 2 ∧
                t.height + (target - t.height) / 2 < target := by omega
            simp only [if_pos hguard]
            have ih1 := ih t (t.height + (target - t.height) / 2)
              (by omega) (by omega)
            cases hr : verify_to_target fetch θ tp cd now t
                (t.height + (target - t.height) / 2) f with
            | none => rw [hr] at ih1; simp at ih1
            | some r =>
                cases r with
                | error e =>
                    dsimp only
                    refine ⟨rfl, ?_⟩
                    have hc1 := ih1.2
                    omega
                | ok pivot =>
                    dsimp only
                    have hpiv : pivot
                        = fetch (t.height + (target - t.height) / 2) :=
                      verify_to_target_ok_eq fetch θ tp cd now f _ _ _ hr
                    have hph : (toTrusted pivot).height
                        = t.height + (target - t.height) / 2 := by
                      rw [hpiv]; exact hfetch _
                    have ih2 := ih (toTrusted pivot) target
                      (by rw [hph]; omega) (by rw [hph]; omega)
                    refine ⟨ih2.1, ?_⟩
                    have hc1 := ih1.2
                    have hc2 := ih2.2
                    rw [hph] at hc2
                    omega
          · have hguard : ¬(t.height < t.height + (target - t.height) / 2 ∧
                t.height + (target - t.height) / 2 < target) := by omega
            simp only [if_neg hguard]
            exact ⟨rfl, by omega⟩

end Tendermint

namespace Claims

open Tendermint

/-- C3: with a height-honest provider, when `verify_to_target` returns
`Success` the returned block has exactly the target height, and it is the
block fetched at `target_height` — never an intermediate pivot. -/
theorem bisection_returns_target (fetch : Nat → LightBlock)
    (θ : TrustThreshold) (tp cd now : Int) (fuel : Nat) (t : TrustedState)
    (target : Nat) (b : LightBlock)
    (hfetch : ∀ h, (fetch h).height = h)
    (hok : verify_to_target fetch θ tp cd now t target fuel
      = some (.ok b)) :
    b.height = target ∧ b = fetch target := by
  have hb := verify_to_target_ok_eq fetch θ tp cd now fuel t target b hok
  subst hb
  exact ⟨hfetch target, rfl⟩

/-- Witness for C3: bisection from the rotating-chain anchor at height 1 to
target height 2 succeeds and returns the block of height 2. -/
theorem bisection_returns_target_witness :
    verify_to_target chainFetch defaultTrustThreshold 10000 0 1000
      (toTrusted (chainBlock 1)) 2 1 = some (.ok (chainBlock 2)) ∧
    (chainBlock 2).height = 2 ∧ chainBlock 2 = chainFetch 2 :=
  ⟨by decide,
   bisection_returns_target chainFetch defaultTrustThreshold 10000 0 1000
     1 (toTrusted (chainBlock 1)) 2 (chainBlock 2) (fun _ => rfl)
     (by decide)⟩

/-- C6 (amended): with a height-honest provider and fuel at least the gap,
bisection terminates with a definite answer; the pivot
`mid = trusted.height + (target - trusted.height) / 2` satisfies
`trusted.height < mid < target` whenever the heights are not adjacent; at
adjacent heights a `NotEnoughTrust` verdict becomes
`Invalid(InsufficientTrustUnrecoverable)` instead of recursing; and the
number of single-step verifications is at most
`2 * (target_height - trusted.height) - 1` — linear in the gap (the
recursion *depth* is logarithmic, but each level performs two recursive
calls, so the step count is not `O(log)`). -/
theorem bisection_terminates (fetch : Nat → LightBlock) (θ : TrustThreshold)
    (tp cd now : Int) (fuel : Nat) (t : TrustedState) (target : Nat)
    (hfetch : ∀ h, (fetch h).height = h)
    (h1 : t.height < target)
    (h2 : target - t.height ≤ fuel) :
    (verify_to_target fetch θ tp cd now t target fuel).isSome = true ∧
    countSingleSteps fetch θ tp cd now t target fuel
      ≤ 2 * (target - t.height) - 1 ∧
    (if t.height + 2 ≤ target then
      t.height < t.height + (target - t.height) / 2 ∧
      t.height + (target - t.height) / 2 < target
    else True) ∧
    (if target = t.height + 1 then
      match verify_single t (fetch target) θ tp cd now with
      | .notEnoughTrust _ =>
          verify_to_target fetch θ tp cd now t target fuel
            = some (.error .insufficientTrustUnrecoverable)
      | _ => True
    else True) := by
  obtain ⟨hsome, hcount⟩ :=
    bisection_fuel_sufficient fetch θ tp cd now hfetch fuel t target h1 h2
  refine ⟨hsome, hcount, ?_, ?_⟩
  · split
    · omega
    · trivial
  · split
    · rename_i hadj
      cases hv : verify_single t (fetch target) θ tp cd now with
      | success b => trivial
      | invalid e => trivial
      | notEnoughTrust tally =>
          obtain ⟨f, rfl⟩ : ∃ f, fuel = f + 1 := ⟨fuel - 1, by omega⟩
          rw [verify_to_target]
          dsimp only
          rw [hv]
          have hguard : ¬(t.height < t.height + (target - t.height) / 2 ∧
              t.height + (target - t.height) / 2 < target) := by omega
          simp only [if_neg hguard]
    · trivial

/-- Witness for C6: the rotating chain from height 1 to height 9 with fuel
8; the run terminates and performs at most `2 * 8 - 1 = 15` single-step
verifications. -/
theorem bisection_terminates_witness :
    (verify_to_target chainFetch defaultTrustThreshold 10000 0 1000
      (toTrusted (chainBlock 1)) 9 8).isSome = true ∧
    countSingleSteps chainFetch defaultTrustThreshold 10000 0 1000
      (toTrusted (chainBlock 1)) 9 8
      ≤ 2 * (9 - (toTrusted (chainBlock 1)).height) - 1 ∧
    (if (toTrusted (chainBlock 1)).height + 2 ≤ 9 then
      (toTrusted (chainBlock 1)).height
        < (toTrusted (chainBlock 1)).height
          + (9 - (toTrusted (chainBlock 1)).height) / 2 ∧
      (toTrusted (chainBlock 1)).height
        + (9 - (toTrusted (chainBlock 1)).height) / 2 < 9
    else True) ∧
    (if 9 = (toTrusted (chainBlock 1)).height + 1 then
      match verify_single (toTrusted (chainBlock 1)) (chainFetch 9)
          defaultTrustThreshold 10000 0 1000 with
      | .notEnoughTrust _ =>
          verify_to_target chainFetch defaultTrustThreshold 10000 0 1000
            (toTrusted (chainBlock 1)) 9 8
            = some (.error .insufficientTrustUnrecoverable)
      | _ => True
    else True) :=
  bisection_terminates chainFetch defaultTrustThreshold 10000 0 1000 8
    (toTrusted (chainBlock 1)) 9 (fun _ => rfl) (by decide) (by decide)

/-- Counterexample to C6's complexity clause: on the rotating chain, trusted
height 1 and target height 9 (gap 8), the bisection performs 15 single-step
verifications — the full linear `2 * gap - 1`, strictly more than a
logarithmic bound such as `2 * log2(gap) + 1 = 7` would allow. -/
theorem bisection_step_count_not_logarithmic :
    countSingleSteps chainFetch defaultTrustThreshold 10000 0 1000
      (toTrusted (chainBlock 1)) 9 8 = 15 ∧
    Nat.log2 (9 - (toTrusted (chainBlock 1)).height) = 3 ∧
    2 * Nat.log2 (9 - (toTrusted (chainBlock 1)).height) + 1 < 15 :=
  ⟨by decide,
   show Nat.log2 8 = 3 by simp [Nat.log2],
   show 2 * Nat.log2 8 + 1 < 15 by simp [Nat.log2]⟩

end Claims

namespace Claims

open Tendermint

/-- Witness for C8: two validators whose powers sum to `2^64 + 4`, strictly
above `u64::MAX`; both sums clamp to `u64::MAX` instead of wrapping to 5. -/
theorem voting_power_saturates_witness :
    u64MAX < ([(⟨1, 2 ^ 64 - 1⟩ : Validator), ⟨2, 5⟩].map
        Validator.voting_power).sum ∧
    u64MAX < (([(⟨1, 2 ^ 64 - 1⟩ : Validator), ⟨2, 5⟩].filter
        (fun v => v.public_key ∈ [1, 2])).map Validator.voting_power).sum ∧
    total_power [⟨1, 2 ^ 64 - 1⟩, ⟨2, 5⟩] = u64MAX ∧
    power_of [⟨1, 2 ^ 64 - 1⟩, ⟨2, 5⟩] [1, 2] = u64MAX :=
  ⟨by decide, by decide,
   voting_power_saturates [⟨1, 2 ^ 64 - 1⟩, ⟨2, 5⟩] [1, 2]
     (by decide) (by decide)⟩

end Claims
